import Mathlib

/-!
Verification of the NAATCOOPS cooperative ledger (src/coop.py).

The repository is a Streamlit application over a Supabase store.  Its
ledger logic lives inline in the page handlers of `src/coop.py`:
deposit/withdraw (page_member_dashboard, lines 156-184), loan application
(lines 193-213), loan approval/rejection (page_admin_dashboard, lines
278-309) and signup (lines 81-95).  We embed that logic shallowly:

* the Supabase tables `members`, `savings_transactions`,
  `loan_applications`, `loan_transactions` become lists inside a
  `CoopState`;
* `select ... .eq("id", x) ... .data[0]` becomes `List.find?`;
* `update(fields).eq("id", x)` becomes a `List.map` touching every row
  whose id matches (SQL semantics);
* `insert` becomes an append at the end of the list;
* monetary amounts (Python floats fed by validated form inputs) are
  modelled as exact rationals `ℚ`;
* each user action is a function `CoopState → CoopState × Option LedgerError`:
  the second component is the error message the page shows (`st.error`),
  `none` when the handler finishes without reporting an error.
-/

namespace Coop

/-- The `role` column of the `members` table: "member" or "admin". -/
inductive Role where
  | member
  | admin
deriving DecidableEq, Repr

/-- The `transaction_type` column of `savings_transactions`: "Deposit" or "Withdraw". -/
inductive TxType where
  | Deposit
  | Withdraw
deriving DecidableEq, Repr

/-- The `status` column of `loan_applications`: "Pending", "Approved" or "Rejected". -/
inductive LoanStatus where
  | Pending
  | Approved
  | Rejected
deriving DecidableEq, Repr

/-- The `action` column of `loan_transactions`: "Applied", "Approved" or "Rejected". -/
inductive LoanAction where
  | Applied
  | Approved
  | Rejected
deriving DecidableEq, Repr

/-- A row of the `members` table (coop.py lines 85-91 list the columns). -/
structure Member where
  id : ℕ
  name : String
  email : String
  role : Role
  savings_balance : ℚ
  loan_balance : ℚ
deriving DecidableEq, Repr

/-- A row of the `savings_transactions` table (coop.py lines 163-168). -/
structure SavingsTx where
  member_id : ℕ
  transaction_type : TxType
  amount : ℚ
deriving DecidableEq, Repr

/-- A row of the `loan_applications` table (coop.py lines 197-202). -/
structure LoanApp where
  id : ℕ
  member_id : ℕ
  amount : ℚ
  status : LoanStatus
deriving DecidableEq, Repr

/-- A row of the `loan_transactions` table (coop.py lines 205-211). -/
structure LoanTx where
  member_id : ℕ
  loan_application_id : Option ℕ
  action : LoanAction
  amount : ℚ
deriving DecidableEq, Repr

/-- The four tables of the Account Store, plus the id counter the store
uses to assign ids to inserted loan applications. -/
structure CoopState where
  members : List Member
  savings_transactions : List SavingsTx
  loan_applications : List LoanApp
  loan_transactions : List LoanTx
  next_app_id : ℕ
deriving DecidableEq, Repr

/-- Errors a handler can show via `st.error`.  `validationError` is
"Amount must be greater than zero." (coop.py lines 158, 195),
`insufficientFunds` is "Insufficient savings balance." (line 173),
`notFound` is the stop/crash on a missing member row (lines 102-104 and
the uncaught IndexError on line 285).  `invalidState` is the
invalid-state rejection named by the spec's error discussion; no code
path of coop.py produces it. -/
inductive LedgerError where
  | validationError
  | insufficientFunds
  | notFound
  | invalidState
deriving DecidableEq, Repr

/-- The call `supabase.table("members").select("*").eq("id", mid) ... .data[0]`:
the first members row whose id matches. -/
def getMember (s : CoopState) (mid : ℕ) : Option Member :=
  s.members.find? (fun m => m.id == mid)

/-- The call `supabase.table("members").update({"savings_balance": nb}).eq("id", mid)`:
set the savings balance of every members row whose id matches. -/
def setSavings (ms : List Member) (mid : ℕ) (nb : ℚ) : List Member :=
  ms.map (fun m => if m.id == mid then { m with savings_balance := nb } else m)

/-- The call `supabase.table("members").update({"loan_balance": nb}).eq("id", mid)`. -/
def setLoan (ms : List Member) (mid : ℕ) (nb : ℚ) : List Member :=
  ms.map (fun m => if m.id == mid then { m with loan_balance := nb } else m)

/-- The loan_applications row with the given id, as the admin page's
per-application button handlers see it. -/
def findApp (s : CoopState) (appId : ℕ) : Option LoanApp :=
  s.loan_applications.find? (fun a => a.id == appId)

/-- The call `supabase.table("loan_applications").update({"status": st}).eq("id", appId)`. -/
def setStatus (apps : List LoanApp) (appId : ℕ) (st : LoanStatus) : List LoanApp :=
  apps.map (fun a => if a.id == appId then { a with status := st } else a)

/-- signup (coop.py lines 81-95): inserts a members row with zero
balances and role "member".  The store assigns the row id; we pass it
explicitly as `newId`. -/
def signup (s : CoopState) (nm em : String) (newId : ℕ) : CoopState :=
  { s with members := s.members ++
      [{ id := newId, name := nm, email := em, role := Role.member,
         savings_balance := 0, loan_balance := 0 }] }

/-- Deposit branch of the savings form (coop.py lines 156-170).
`get_member_required` aborts when the member row is missing; then the
handler rejects non-positive amounts, else adds the amount to the balance
read from the row and appends one Deposit record. -/
def deposit (s : CoopState) (mid : ℕ) (amount : ℚ) :
    CoopState × Option LedgerError :=
  match getMember s mid with
  | none => (s, some LedgerError.notFound)
  | some member =>
    if amount ≤ 0 then (s, some LedgerError.validationError)
    else
      let new_balance := member.savings_balance + amount
      ({ s with
          members := setSavings s.members mid new_balance,
          savings_transactions := s.savings_transactions ++
            [{ member_id := mid, transaction_type := TxType.Deposit,
               amount := amount }] }, none)

/-- Withdraw branch of the savings form (coop.py lines 156-184).  After
the positivity check, the handler errors when the amount exceeds the
balance read from the row ("Insufficient savings balance."), else
subtracts it and appends one Withdraw record. -/
def withdraw (s : CoopState) (mid : ℕ) (amount : ℚ) :
    CoopState × Option LedgerError :=
  match getMember s mid with
  | none => (s, some LedgerError.notFound)
  | some member =>
    if amount ≤ 0 then (s, some LedgerError.validationError)
    else if member.savings_balance < amount then
      (s, some LedgerError.insufficientFunds)
    else
      let new_balance := member.savings_balance - amount
      ({ s with
          members := setSavings s.members mid new_balance,
          savings_transactions := s.savings_transactions ++
            [{ member_id := mid, transaction_type := TxType.Withdraw,
               amount := amount }] }, none)

/-- Loan application form (coop.py lines 193-213).  After the positivity
check, the handler inserts a Pending application, reads the returned row
(`(insert.data or [None])[0]` — `rowReturned` says whether the store
returned the inserted row), and appends one Applied loan record whose
`loan_application_id` is the new row's id, or null when no row came
back. -/
def applyLoanApplication (s : CoopState) (mid : ℕ) (amount : ℚ)
    (rowReturned : Bool) : CoopState × Option LedgerError :=
  match getMember s mid with
  | none => (s, some LedgerError.notFound)
  | some _ =>
    if amount ≤ 0 then (s, some LedgerError.validationError)
    else
      let appId := s.next_app_id
      ({ s with
          loan_applications := s.loan_applications ++
            [{ id := appId, member_id := mid, amount := amount,
               status := LoanStatus.Pending }],
          next_app_id := appId + 1,
          loan_transactions := s.loan_transactions ++
            [{ member_id := mid,
               loan_application_id := if rowReturned then some appId else none,
               action := LoanAction.Applied, amount := amount }] },
        none)

/-- Approve button (coop.py lines 278-297).  The admin page renders the
button only for rows whose status reads "Pending" (line 278), so on any
other row nothing runs: no write, no message.  When it runs it first sets
the application's status to Approved, then reads the member row
(`.data[0]` raises when absent — modelled as `notFound` after the status
write), adds the application amount to the loan balance and appends one
Approved loan record. -/
def approveLoan (s : CoopState) (appId : ℕ) :
    CoopState × Option LedgerError :=
  match findApp s appId with
  | none => (s, none)
  | some app =>
    if app.status = LoanStatus.Pending then
      let s1 := { s with
        loan_applications := setStatus s.loan_applications appId LoanStatus.Approved }
      match getMember s1 app.member_id with
      | none => (s1, some LedgerError.notFound)
      | some member_row =>
        let new_loan_balance := member_row.loan_balance + app.amount
        ({ s1 with
            members := setLoan s1.members member_row.id new_loan_balance,
            loan_transactions := s1.loan_transactions ++
              [{ member_id := member_row.id, loan_application_id := some appId,
                 action := LoanAction.Approved, amount := app.amount }] },
          none)
    else (s, none)

/-- Reject button (coop.py lines 298-309), likewise rendered only for
rows reading "Pending": sets the status to Rejected and appends one
Rejected loan record; no balance is touched. -/
def rejectLoan (s : CoopState) (appId : ℕ) :
    CoopState × Option LedgerError :=
  match findApp s appId with
  | none => (s, none)
  | some app =>
    if app.status = LoanStatus.Pending then
      ({ s with
          loan_applications := setStatus s.loan_applications appId LoanStatus.Rejected,
          loan_transactions := s.loan_transactions ++
            [{ member_id := app.member_id, loan_application_id := some appId,
               action := LoanAction.Rejected, amount := app.amount }] },
        none)
    else (s, none)

/-- One user action against the ledger. -/
inductive Op where
  | deposit (mid : ℕ) (amount : ℚ)
  | withdraw (mid : ℕ) (amount : ℚ)
  | applyLoan (mid : ℕ) (amount : ℚ) (rowReturned : Bool)
  | approve (appId : ℕ)
  | reject (appId : ℕ)
deriving DecidableEq, Repr

/-- Run one action; a handler that stopped with an error leaves the
store as it left it (for the validated handlers that is unchanged). -/
def runOp (s : CoopState) : Op → CoopState
  | Op.deposit mid a => (deposit s mid a).1
  | Op.withdraw mid a => (withdraw s mid a).1
  | Op.applyLoan mid a rr => (applyLoanApplication s mid a rr).1
  | Op.approve appId => (approveLoan s appId).1
  | Op.reject appId => (rejectLoan s appId).1

/-- Run a sequence of actions. -/
def runOps (s : CoopState) (ops : List Op) : CoopState :=
  ops.foldl runOp s

/-- The store before anyone signs up. -/
def emptyState : CoopState :=
  { members := [], savings_transactions := [], loan_applications := [],
    loan_transactions := [], next_app_id := 0 }

/-- Sum of the Deposit amounts a member's savings log records. -/
def depositsSum (log : List SavingsTx) (mid : ℕ) : ℚ :=
  ((log.filter (fun r => decide (r.member_id = mid ∧
      r.transaction_type = TxType.Deposit))).map SavingsTx.amount).sum

/-- Sum of the Withdraw amounts a member's savings log records. -/
def withdrawalsSum (log : List SavingsTx) (mid : ℕ) : ℚ :=
  ((log.filter (fun r => decide (r.member_id = mid ∧
      r.transaction_type = TxType.Withdraw))).map SavingsTx.amount).sum

/-- Sum of the amounts of a member's Approved loan records. -/
def approvedSum (log : List LoanTx) (mid : ℕ) : ℚ :=
  ((log.filter (fun r => decide (r.member_id = mid ∧
      r.action = LoanAction.Approved))).map LoanTx.amount).sum

/-- Every member row has non-negative balances and every stored loan
application carries a positive amount. -/
def BalancesNonneg (s : CoopState) : Prop :=
  (∀ m ∈ s.members, 0 ≤ m.savings_balance ∧ 0 ≤ m.loan_balance) ∧
  ∀ a ∈ s.loan_applications, 0 < a.amount

/-- Every member row's savings balance is the sum of its Deposit records
minus the sum of its Withdraw records, and its loan balance is the sum of
its Approved loan records. -/
def BalancedLog (s : CoopState) : Prop :=
  ∀ m ∈ s.members,
    m.savings_balance =
      depositsSum s.savings_transactions m.id -
        withdrawalsSum s.savings_transactions m.id ∧
    m.loan_balance = approvedSum s.loan_transactions m.id

/-- One click of the Approve control for a given application, as a state
transformer (the store as the click leaves it). -/
def approveStep (appId : ℕ) (s : CoopState) : CoopState :=
  (approveLoan s appId).1

/-- A concrete member row used to instantiate the theorems below:
savings balance 5000, no loan. -/
def wMember : Member :=
  { id := 0, name := "ada", email := "ada@coop.test", role := Role.member,
    savings_balance := 5000, loan_balance := 0 }

/-- A concrete store holding just `wMember`. -/
def wState : CoopState :=
  { members := [wMember], savings_transactions := [], loan_applications := [],
    loan_transactions := [], next_app_id := 0 }

/-- A concrete store holding `wMember` and a Pending loan application of
20000 that `wMember` submitted. -/
def wAppState : CoopState :=
  { members := [wMember], savings_transactions := [],
    loan_applications :=
      [{ id := 0, member_id := 0, amount := 20000, status := LoanStatus.Pending }],
    loan_transactions :=
      [{ member_id := 0, loan_application_id := some 0,
         action := LoanAction.Applied, amount := 20000 }],
    next_app_id := 1 }

/-- A concrete store in which application 0 has already been Approved and
the member's loan balance credited: the store reached from signup,
a 20000 loan application, and one approval. -/
def approvedState : CoopState :=
  { members := [{ id := 0, name := "ada", email := "ada@coop.test",
                  role := Role.member, savings_balance := 0,
                  loan_balance := 20000 }],
    savings_transactions := [],
    loan_applications :=
      [{ id := 0, member_id := 0, amount := 20000, status := LoanStatus.Approved }],
    loan_transactions :=
      [{ member_id := 0, loan_application_id := some 0,
         action := LoanAction.Applied, amount := 20000 },
       { member_id := 0, loan_application_id := some 0,
         action := LoanAction.Approved, amount := 20000 }],
    next_app_id := 1 }

/-! ### Basic lemmas about row lookup and row update -/

theorem getMember_mem {s : CoopState} {mid : ℕ} {m : Member}
    (h : getMember s mid = some m) : m ∈ s.members :=
  List.mem_of_find?_eq_some h

theorem getMember_id {s : CoopState} {mid : ℕ} {m : Member}
    (h : getMember s mid = some m) : m.id = mid := by
  simpa using List.find?_some h

theorem findApp_mem {s : CoopState} {appId : ℕ} {a : LoanApp}
    (h : findApp s appId = some a) : a ∈ s.loan_applications :=
  List.mem_of_find?_eq_some h

theorem findApp_id {s : CoopState} {appId : ℕ} {a : LoanApp}
    (h : findApp s appId = some a) : a.id = appId := by
  simpa using List.find?_some h

theorem find?_map_of_pred_eq {α : Type} {p : α → Bool} {f : α → α}
    (hp : ∀ a, p (f a) = p a) (l : List α) :
    (l.map f).find? p = (l.find? p).map f := by
  rw [List.find?_map]
  have hpf : p ∘ f = p := funext hp
  rw [hpf]

theorem find?_setSavings {ms : List Member} {mid : ℕ} {m : Member} (nb : ℚ)
    (h : ms.find? (fun x => x.id == mid) = some m) :
    (setSavings ms mid nb).find? (fun x => x.id == mid)
      = some { m with savings_balance := nb } := by
  unfold setSavings
  rw [find?_map_of_pred_eq (by intro a; by_cases ha : a.id = mid <;> simp [ha]), h]
  have hid : m.id = mid := by simpa using List.find?_some h
  simp [hid]

theorem find?_setLoan {ms : List Member} {mid : ℕ} {m : Member} (nb : ℚ)
    (h : ms.find? (fun x => x.id == mid) = some m) :
    (setLoan ms mid nb).find? (fun x => x.id == mid)
      = some { m with loan_balance := nb } := by
  unfold setLoan
  rw [find?_map_of_pred_eq (by intro a; by_cases ha : a.id = mid <;> simp [ha]), h]
  have hid : m.id = mid := by simpa using List.find?_some h
  simp [hid]

theorem find?_setStatus {apps : List LoanApp} {appId : ℕ} {a : LoanApp}
    (st : LoanStatus)
    (h : apps.find? (fun x => x.id == appId) = some a) :
    (setStatus apps appId st).find? (fun x => x.id == appId)
      = some { a with status := st } := by
  unfold setStatus
  rw [find?_map_of_pred_eq (by intro x; by_cases hx : x.id = appId <;> simp [hx]), h]
  have hid : a.id = appId := by simpa using List.find?_some h
  simp [hid]

theorem mem_setSavings {ms : List Member} {mid : ℕ} {nb : ℚ} {m' : Member}
    (h : m' ∈ setSavings ms mid nb) :
    ∃ m ∈ ms, m' = if m.id == mid then { m with savings_balance := nb } else m := by
  simp only [setSavings, List.mem_map] at h
  obtain ⟨m, hm, he⟩ := h
  exact ⟨m, hm, he.symm⟩

theorem mem_setLoan {ms : List Member} {mid : ℕ} {nb : ℚ} {m' : Member}
    (h : m' ∈ setLoan ms mid nb) :
    ∃ m ∈ ms, m' = if m.id == mid then { m with loan_balance := nb } else m := by
  simp only [setLoan, List.mem_map] at h
  obtain ⟨m, hm, he⟩ := h
  exact ⟨m, hm, he.symm⟩

theorem mem_setStatus {apps : List LoanApp} {appId : ℕ} {st : LoanStatus}
    {a' : LoanApp} (h : a' ∈ setStatus apps appId st) :
    ∃ a ∈ apps, a' = if a.id == appId then { a with status := st } else a := by
  simp only [setStatus, List.mem_map] at h
  obtain ⟨a, ha, he⟩ := h
  exact ⟨a, ha, he.symm⟩

/-! ### Characterization of each handler as an equation -/

theorem deposit_of_none {s : CoopState} {mid : ℕ} (a : ℚ)
    (hm : getMember s mid = none) :
    deposit s mid a = (s, some LedgerError.notFound) := by
  unfold deposit; rw [hm]

theorem deposit_of_nonpos {s : CoopState} {mid : ℕ} {m : Member} {a : ℚ}
    (hm : getMember s mid = some m) (ha : a ≤ 0) :
    deposit s mid a = (s, some LedgerError.validationError) := by
  unfold deposit; rw [hm]; simp [ha]

theorem deposit_of_pos {s : CoopState} {mid : ℕ} {m : Member} {a : ℚ}
    (hm : getMember s mid = some m) (ha : 0 < a) :
    deposit s mid a =
      ({ s with
          members := setSavings s.members mid (m.savings_balance + a),
          savings_transactions := s.savings_transactions ++
            [{ member_id := mid, transaction_type := TxType.Deposit,
               amount := a }] }, none) := by
  unfold deposit; rw [hm]; simp [not_le.mpr ha]

theorem withdraw_of_none {s : CoopState} {mid : ℕ} (a : ℚ)
    (hm : getMember s mid = none) :
    withdraw s mid a = (s, some LedgerError.notFound) := by
  unfold withdraw; rw [hm]

theorem withdraw_of_nonpos {s : CoopState} {mid : ℕ} {m : Member} {a : ℚ}
    (hm : getMember s mid = some m) (ha : a ≤ 0) :
    withdraw s mid a = (s, some LedgerError.validationError) := by
  unfold withdraw; rw [hm]; simp [ha]

theorem withdraw_of_over {s : CoopState} {mid : ℕ} {m : Member} {a : ℚ}
    (hm : getMember s mid = some m) (ha : 0 < a)
    (hover : m.savings_balance < a) :
    withdraw s mid a = (s, some LedgerError.insufficientFunds) := by
  unfold withdraw; rw [hm]; simp [not_le.mpr ha, hover]

theorem withdraw_of_le {s : CoopState} {mid : ℕ} {m : Member} {a : ℚ}
    (hm : getMember s mid = some m) (ha : 0 < a)
    (hle : a ≤ m.savings_balance) :
    withdraw s mid a =
      ({ s with
          members := setSavings s.members mid (m.savings_balance - a),
          savings_transactions := s.savings_transactions ++
            [{ member_id := mid, transaction_type := TxType.Withdraw,
               amount := a }] }, none) := by
  unfold withdraw; rw [hm]; simp [not_le.mpr ha, not_lt.mpr hle]

theorem applyLoan_of_none {s : CoopState} {mid : ℕ} (a : ℚ) (rr : Bool)
    (hm : getMember s mid = none) :
    applyLoanApplication s mid a rr = (s, some LedgerError.notFound) := by
  unfold applyLoanApplication; rw [hm]

theorem applyLoan_of_nonpos {s : CoopState} {mid : ℕ} {m : Member} {a : ℚ}
    (rr : Bool) (hm : getMember s mid = some m) (ha : a ≤ 0) :
    applyLoanApplication s mid a rr = (s, some LedgerError.validationError) := by
  unfold applyLoanApplication; rw [hm]; simp [ha]

theorem applyLoan_of_pos {s : CoopState} {mid : ℕ} {m : Member} {a : ℚ}
    (rr : Bool) (hm : getMember s mid = some m) (ha : 0 < a) :
    applyLoanApplication s mid a rr =
      ({ s with
          loan_applications := s.loan_applications ++
            [{ id := s.next_app_id, member_id := mid, amount := a,
               status := LoanStatus.Pending }],
          next_app_id := s.next_app_id + 1,
          loan_transactions := s.loan_transactions ++
            [{ member_id := mid,
               loan_application_id := if rr then some s.next_app_id else none,
               action := LoanAction.Applied, amount := a }] }, none) := by
  unfold applyLoanApplication; rw [hm]; simp [not_le.mpr ha]

theorem approveLoan_of_noApp {s : CoopState} {appId : ℕ}
    (h : findApp s appId = none) :
    approveLoan s appId = (s, none) := by
  unfold approveLoan; rw [h]

theorem approveLoan_of_notPending {s : CoopState} {appId : ℕ} {app : LoanApp}
    (h : findApp s appId = some app) (hst : app.status ≠ LoanStatus.Pending) :
    approveLoan s appId = (s, none) := by
  unfold approveLoan; rw [h]; simp [hst]

theorem approveLoan_of_noMember {s : CoopState} {appId : ℕ} {app : LoanApp}
    (h : findApp s appId = some app) (hst : app.status = LoanStatus.Pending)
    (hm : getMember s app.member_id = none) :
    approveLoan s appId =
      ({ s with
          loan_applications := setStatus s.loan_applications appId
            LoanStatus.Approved }, some LedgerError.notFound) := by
  unfold approveLoan; rw [h]
  have hm1 : getMember { s with loan_applications :=
      (setStatus s.loan_applications appId LoanStatus.Approved) }
      app.member_id = none := hm
  simp [hst, hm1]

theorem approveLoan_of_pending {s : CoopState} {appId : ℕ} {app : LoanApp}
    {m : Member}
    (h : findApp s appId = some app) (hst : app.status = LoanStatus.Pending)
    (hm : getMember s app.member_id = some m) :
    approveLoan s appId =
      ({ s with
          loan_applications := setStatus s.loan_applications appId
            LoanStatus.Approved,
          members := setLoan s.members m.id (m.loan_balance + app.amount),
          loan_transactions := s.loan_transactions ++
            [{ member_id := m.id, loan_application_id := some appId,
               action := LoanAction.Approved, amount := app.amount }] },
        none) := by
  unfold approveLoan; rw [h]
  have hm1 : getMember { s with loan_applications :=
      (setStatus s.loan_applications appId LoanStatus.Approved) }
      app.member_id = some m := hm
  simp [hst, hm1]

theorem rejectLoan_of_noApp {s : CoopState} {appId : ℕ}
    (h : findApp s appId = none) :
    rejectLoan s appId = (s, none) := by
  unfold rejectLoan; rw [h]

theorem rejectLoan_of_notPending {s : CoopState} {appId : ℕ} {app : LoanApp}
    (h : findApp s appId = some app) (hst : app.status ≠ LoanStatus.Pending) :
    rejectLoan s appId = (s, none) := by
  unfold rejectLoan; rw [h]; simp [hst]

theorem rejectLoan_of_pending {s : CoopState} {appId : ℕ} {app : LoanApp}
    (h : findApp s appId = some app) (hst : app.status = LoanStatus.Pending) :
    rejectLoan s appId =
      ({ s with
          loan_applications := setStatus s.loan_applications appId
            LoanStatus.Rejected,
          loan_transactions := s.loan_transactions ++
            [{ member_id := app.member_id, loan_application_id := some appId,
               action := LoanAction.Rejected, amount := app.amount }] },
        none) := by
  unfold rejectLoan; rw [h]; simp [hst]

/-! ### Lemmas about the log sums -/

theorem depositsSum_append (l r : List SavingsTx) (mid : ℕ) :
    depositsSum (l ++ r) mid = depositsSum l mid + depositsSum r mid := by
  simp [depositsSum, List.filter_append]

theorem withdrawalsSum_append (l r : List SavingsTx) (mid : ℕ) :
    withdrawalsSum (l ++ r) mid = withdrawalsSum l mid + withdrawalsSum r mid := by
  simp [withdrawalsSum, List.filter_append]

theorem approvedSum_append (l r : List LoanTx) (mid : ℕ) :
    approvedSum (l ++ r) mid = approvedSum l mid + approvedSum r mid := by
  simp [approvedSum, List.filter_append]

theorem depositsSum_single (r : SavingsTx) (mid : ℕ) :
    depositsSum [r] mid =
      if r.member_id = mid ∧ r.transaction_type = TxType.Deposit
      then r.amount else 0 := by
  by_cases h : r.member_id = mid ∧ r.transaction_type = TxType.Deposit <;>
    simp [depositsSum, List.filter, h]

theorem withdrawalsSum_single (r : SavingsTx) (mid : ℕ) :
    withdrawalsSum [r] mid =
      if r.member_id = mid ∧ r.transaction_type = TxType.Withdraw
      then r.amount else 0 := by
  by_cases h : r.member_id = mid ∧ r.transaction_type = TxType.Withdraw <;>
    simp [withdrawalsSum, List.filter, h]

theorem approvedSum_single (r : LoanTx) (mid : ℕ) :
    approvedSum [r] mid =
      if r.member_id = mid ∧ r.action = LoanAction.Approved
      then r.amount else 0 := by
  by_cases h : r.member_id = mid ∧ r.action = LoanAction.Approved <;>
    simp [approvedSum, List.filter, h]

/-! ### Invariant: balances are never negative -/

theorem nonneg_setSavings {ms : List Member} {mid : ℕ} {nb : ℚ}
    (hms : ∀ m ∈ ms, 0 ≤ m.savings_balance ∧ 0 ≤ m.loan_balance)
    (hnb : 0 ≤ nb) :
    ∀ m' ∈ setSavings ms mid nb, 0 ≤ m'.savings_balance ∧ 0 ≤ m'.loan_balance := by
  intro m' hm'
  obtain ⟨m0, hm0, heq⟩ := mem_setSavings hm'
  by_cases hid : m0.id == mid
  · simp only [heq, hid, if_true]
    exact ⟨hnb, (hms m0 hm0).2⟩
  · simp only [heq, hid]
    simpa using hms m0 hm0

theorem nonneg_setLoan {ms : List Member} {mid : ℕ} {nb : ℚ}
    (hms : ∀ m ∈ ms, 0 ≤ m.savings_balance ∧ 0 ≤ m.loan_balance)
    (hnb : 0 ≤ nb) :
    ∀ m' ∈ setLoan ms mid nb, 0 ≤ m'.savings_balance ∧ 0 ≤ m'.loan_balance := by
  intro m' hm'
  obtain ⟨m0, hm0, heq⟩ := mem_setLoan hm'
  by_cases hid : m0.id == mid
  · simp only [heq, hid, if_true]
    exact ⟨(hms m0 hm0).1, hnb⟩
  · simp only [heq, hid]
    simpa using hms m0 hm0

theorem amount_pos_setStatus {apps : List LoanApp} {appId : ℕ} {st : LoanStatus}
    (hpos : ∀ a ∈ apps, 0 < a.amount) :
    ∀ a' ∈ setStatus apps appId st, 0 < a'.amount := by
  intro a' ha'
  obtain ⟨a0, ha0, heq⟩ := mem_setStatus ha'
  have h0 := hpos a0 ha0
  by_cases hid : a0.id == appId <;> simp [heq, hid] <;> exact h0

theorem balancesNonneg_runOp {s : CoopState} (h : BalancesNonneg s) (op : Op) :
    BalancesNonneg (runOp s op) := by
  cases op with
  | deposit mid a =>
    cases hg : getMember s mid with
    | none => simpa [runOp, deposit_of_none a hg] using h
    | some m =>
      by_cases ha : a ≤ 0
      · simpa [runOp, deposit_of_nonpos hg ha] using h
      · have ha' : (0 : ℚ) < a := not_le.mp ha
        simp only [runOp, deposit_of_pos hg ha']
        refine ⟨?_, h.2⟩
        apply nonneg_setSavings h.1
        have h0 : 0 ≤ m.savings_balance := (h.1 m (getMember_mem hg)).1
        linarith
  | withdraw mid a =>
    cases hg : getMember s mid with
    | none => simpa [runOp, withdraw_of_none a hg] using h
    | some m =>
      by_cases ha : a ≤ 0
      · simpa [runOp, withdraw_of_nonpos hg ha] using h
      · have ha' : (0 : ℚ) < a := not_le.mp ha
        by_cases hover : m.savings_balance < a
        · simpa [runOp, withdraw_of_over hg ha' hover] using h
        · have hle : a ≤ m.savings_balance := not_lt.mp hover
          simp only [runOp, withdraw_of_le hg ha' hle]
          refine ⟨?_, h.2⟩
          apply nonneg_setSavings h.1
          linarith
  | applyLoan mid a rr =>
    cases hg : getMember s mid with
    | none => simpa [runOp, applyLoan_of_none a rr hg] using h
    | some m =>
      by_cases ha : a ≤ 0
      · simpa [runOp, applyLoan_of_nonpos rr hg ha] using h
      · have ha' : (0 : ℚ) < a := not_le.mp ha
        simp only [runOp, applyLoan_of_pos rr hg ha']
        refine ⟨h.1, ?_⟩
        intro x hx
        rcases List.mem_append.mp hx with hx | hx
        · exact h.2 x hx
        · simp only [List.mem_singleton] at hx
          simpa [hx] using ha'
  | approve appId =>
    cases hf : findApp s appId with
    | none => simpa [runOp, approveLoan_of_noApp hf] using h
    | some app =>
      by_cases hst : app.status = LoanStatus.Pending
      · cases hg : getMember s app.member_id with
        | none =>
          simp only [runOp, approveLoan_of_noMember hf hst hg]
          exact ⟨h.1, amount_pos_setStatus h.2⟩
        | some m =>
          simp only [runOp, approveLoan_of_pending hf hst hg]
          refine ⟨?_, amount_pos_setStatus h.2⟩
          apply nonneg_setLoan h.1
          have h0 : 0 ≤ m.loan_balance := (h.1 m (getMember_mem hg)).2
          have h1 : 0 < app.amount := h.2 app (findApp_mem hf)
          linarith
      · simpa [runOp, approveLoan_of_notPending hf hst] using h
  | reject appId =>
    cases hf : findApp s appId with
    | none => simpa [runOp, rejectLoan_of_noApp hf] using h
    | some app =>
      by_cases hst : app.status = LoanStatus.Pending
      · simp only [runOp, rejectLoan_of_pending hf hst]
        exact ⟨h.1, amount_pos_setStatus h.2⟩
      · simpa [runOp, rejectLoan_of_notPending hf hst] using h

theorem balancesNonneg_runOps {s : CoopState} (h : BalancesNonneg s)
    (ops : List Op) : BalancesNonneg (runOps s ops) := by
  induction ops generalizing s with
  | nil => exact h
  | cons op rest ih => exact ih (balancesNonneg_runOp h op)

theorem balancesNonneg_signup {s : CoopState} (h : BalancesNonneg s)
    (nm em : String) (nid : ℕ) : BalancesNonneg (signup s nm em nid) := by
  refine ⟨?_, h.2⟩
  intro m hm
  rcases List.mem_append.mp hm with hm | hm
  · exact h.1 m hm
  · simp only [List.mem_singleton] at hm
    simp [hm]

theorem balancesNonneg_empty : BalancesNonneg emptyState := by
  constructor <;> intro x hx <;> simp [emptyState] at hx

/-! ### Invariant: balances agree with the transaction logs -/

theorem balancedLog_runOp {s : CoopState} (h : BalancedLog s) (op : Op) :
    BalancedLog (runOp s op) := by
  cases op with
  | deposit mid a =>
    cases hg : getMember s mid with
    | none => simpa [runOp, deposit_of_none a hg] using h
    | some m =>
      by_cases ha : a ≤ 0
      · simpa [runOp, deposit_of_nonpos hg ha] using h
      · have ha' : (0 : ℚ) < a := not_le.mp ha
        simp only [runOp, deposit_of_pos hg ha']
        intro m' hm'
        obtain ⟨m0, hm0, heq⟩ := mem_setSavings hm'
        have hb0 := h m0 hm0
        by_cases hid : (m0.id == mid) = true
        · rw [if_pos hid] at heq
          have hid' : m0.id = mid := by simpa using hid
          have hbm := h m (getMember_mem hg)
          have hmid : m.id = mid := getMember_id hg
          rw [hmid] at hbm
          subst heq
          refine ⟨?_, ?_⟩
          · simp only [depositsSum_append, withdrawalsSum_append,
              depositsSum_single, withdrawalsSum_single]
            simp [hid']
            linarith [hbm.1]
          · simpa using hb0.2
        · rw [if_neg hid] at heq
          have hid' : ¬ m0.id = mid := by simpa using hid
          subst heq
          have hid2 : ¬ mid = m'.id := fun hc => hid' hc.symm
          refine ⟨?_, hb0.2⟩
          simp only [depositsSum_append, withdrawalsSum_append,
            depositsSum_single, withdrawalsSum_single]
          simp [hid2]
          linarith [hb0.1]
  | withdraw mid a =>
    cases hg : getMember s mid with
    | none => simpa [runOp, withdraw_of_none a hg] using h
    | some m =>
      by_cases ha : a ≤ 0
      · simpa [runOp, withdraw_of_nonpos hg ha] using h
      · have ha' : (0 : ℚ) < a := not_le.mp ha
        by_cases hover : m.savings_balance < a
        · simpa [runOp, withdraw_of_over hg ha' hover] using h
        · have hle : a ≤ m.savings_balance := not_lt.mp hover
          simp only [runOp, withdraw_of_le hg ha' hle]
          intro m' hm'
          obtain ⟨m0, hm0, heq⟩ := mem_setSavings hm'
          have hb0 := h m0 hm0
          by_cases hid : (m0.id == mid) = true
          · rw [if_pos hid] at heq
            have hid' : m0.id = mid := by simpa using hid
            have hbm := h m (getMember_mem hg)
            have hmid : m.id = mid := getMember_id hg
            rw [hmid] at hbm
            subst heq
            refine ⟨?_, ?_⟩
            · simp only [depositsSum_append, withdrawalsSum_append,
                depositsSum_single, withdrawalsSum_single]
              simp [hid']
              linarith [hbm.1]
            · simpa using hb0.2
          · rw [if_neg hid] at heq
            have hid' : ¬ m0.id = mid := by simpa using hid
            subst heq
            have hid2 : ¬ mid = m'.id := fun hc => hid' hc.symm
            refine ⟨?_, hb0.2⟩
            simp only [depositsSum_append, withdrawalsSum_append,
              depositsSum_single, withdrawalsSum_single]
            simp [hid2]
            linarith [hb0.1]
  | applyLoan mid a rr =>
    cases hg : getMember s mid with
    | none => simpa [runOp, applyLoan_of_none a rr hg] using h
    | some m =>
      by_cases ha : a ≤ 0
      · simpa [runOp, applyLoan_of_nonpos rr hg ha] using h
      · have ha' : (0 : ℚ) < a := not_le.mp ha
        simp only [runOp, applyLoan_of_pos rr hg ha']
        intro m' hm'
        have hb := h m' hm'
        refine ⟨hb.1, ?_⟩
        simp only [approvedSum_append, approvedSum_single]
        simpa using hb.2
  | approve appId =>
    cases hf : findApp s appId with
    | none => simpa [runOp, approveLoan_of_noApp hf] using h
    | some app =>
      by_cases hst : app.status = LoanStatus.Pending
      · cases hg : getMember s app.member_id with
        | none =>
          simp only [runOp, approveLoan_of_noMember hf hst hg]
          exact fun m' hm' => h m' hm'
        | some m =>
          simp only [runOp, approveLoan_of_pending hf hst hg]
          intro m' hm'
          obtain ⟨m0, hm0, heq⟩ := mem_setLoan hm'
          have hb0 := h m0 hm0
          by_cases hid : (m0.id == m.id) = true
          · rw [if_pos hid] at heq
            have hid' : m0.id = m.id := by simpa using hid
            have hbm := h m (getMember_mem hg)
            subst heq
            refine ⟨by simpa using hb0.1, ?_⟩
            simp only [approvedSum_append, approvedSum_single]
            simp [hid']
            linarith [hbm.2]
          · rw [if_neg hid] at heq
            have hid' : ¬ m0.id = m.id := by simpa using hid
            subst heq
            have hid2 : ¬ m.id = m'.id := fun hc => hid' hc.symm
            refine ⟨hb0.1, ?_⟩
            simp only [approvedSum_append, approvedSum_single]
            simp [hid2]
            exact hb0.2
      · simpa [runOp, approveLoan_of_notPending hf hst] using h
  | reject appId =>
    cases hf : findApp s appId with
    | none => simpa [runOp, rejectLoan_of_noApp hf] using h
    | some app =>
      by_cases hst : app.status = LoanStatus.Pending
      · simp only [runOp, rejectLoan_of_pending hf hst]
        intro m' hm'
        have hb := h m' hm'
        refine ⟨hb.1, ?_⟩
        simp only [approvedSum_append, approvedSum_single]
        simpa using hb.2
      · simpa [runOp, rejectLoan_of_notPending hf hst] using h

theorem balancedLog_runOps {s : CoopState} (h : BalancedLog s)
    (ops : List Op) : BalancedLog (runOps s ops) := by
  induction ops generalizing s with
  | nil => exact h
  | cons op rest ih => exact ih (balancedLog_runOp h op)

theorem balancedLog_signup_empty (nm em : String) (nid : ℕ) :
    BalancedLog (signup emptyState nm em nid) := by
  intro m hm
  simp only [signup, emptyState, List.nil_append, List.mem_singleton] at hm
  subst hm
  constructor <;> simp [signup, emptyState, depositsSum, withdrawalsSum, approvedSum]

/-! ### The handlers never touch identity or role columns -/

theorem idRole_setSavings (ms : List Member) (mid : ℕ) (nb : ℚ) :
    (setSavings ms mid nb).map (fun m => (m.id, m.role)) =
      ms.map (fun m => (m.id, m.role)) := by
  unfold setSavings
  rw [List.map_map]
  apply List.map_congr_left
  intro m hm
  by_cases hid : (m.id == mid) = true <;> simp [Function.comp, hid]

theorem idRole_setLoan (ms : List Member) (mid : ℕ) (nb : ℚ) :
    (setLoan ms mid nb).map (fun m => (m.id, m.role)) =
      ms.map (fun m => (m.id, m.role)) := by
  unfold setLoan
  rw [List.map_map]
  apply List.map_congr_left
  intro m hm
  by_cases hid : (m.id == mid) = true <;> simp [Function.comp, hid]

theorem idRole_runOp (s : CoopState) (op : Op) :
    (runOp s op).members.map (fun m => (m.id, m.role)) =
      s.members.map (fun m => (m.id, m.role)) := by
  cases op with
  | deposit mid a =>
    cases hg : getMember s mid with
    | none => simp [runOp, deposit_of_none a hg]
    | some m =>
      by_cases ha : a ≤ 0
      · simp [runOp, deposit_of_nonpos hg ha]
      · simp [runOp, deposit_of_pos hg (not_le.mp ha), idRole_setSavings]
  | withdraw mid a =>
    cases hg : getMember s mid with
    | none => simp [runOp, withdraw_of_none a hg]
    | some m =>
      by_cases ha : a ≤ 0
      · simp [runOp, withdraw_of_nonpos hg ha]
      · by_cases hover : m.savings_balance < a
        · simp [runOp, withdraw_of_over hg (not_le.mp ha) hover]
        · simp [runOp, withdraw_of_le hg (not_le.mp ha) (not_lt.mp hover),
            idRole_setSavings]
  | applyLoan mid a rr =>
    cases hg : getMember s mid with
    | none => simp [runOp, applyLoan_of_none a rr hg]
    | some m =>
      by_cases ha : a ≤ 0
      · simp [runOp, applyLoan_of_nonpos rr hg ha]
      · simp [runOp, applyLoan_of_pos rr hg (not_le.mp ha)]
  | approve appId =>
    cases hf : findApp s appId with
    | none => simp [runOp, approveLoan_of_noApp hf]
    | some app =>
      by_cases hst : app.status = LoanStatus.Pending
      · cases hg : getMember s app.member_id with
        | none => simp [runOp, approveLoan_of_noMember hf hst hg]
        | some m =>
          simp [runOp, approveLoan_of_pending hf hst hg, idRole_setLoan]
      · simp [runOp, approveLoan_of_notPending hf hst]
  | reject appId =>
    cases hf : findApp s appId with
    | none => simp [runOp, rejectLoan_of_noApp hf]
    | some app =>
      by_cases hst : app.status = LoanStatus.Pending
      · simp [runOp, rejectLoan_of_pending hf hst]
      · simp [runOp, rejectLoan_of_notPending hf hst]

theorem idRole_runOps (s : CoopState) (ops : List Op) :
    (runOps s ops).members.map (fun m => (m.id, m.role)) =
      s.members.map (fun m => (m.id, m.role)) := by
  induction ops generalizing s with
  | nil => rfl
  | cons op rest ih =>
    have h1 : runOps s (op :: rest) = runOps (runOp s op) rest := rfl
    rw [h1, ih (runOp s op), idRole_runOp]

/-! ### The claims -/

/-- Claim C1: for every account and every sequence of valid ledger operations
(deposit, withdraw, loan application, loan approval, loan rejection)
starting from a freshly created account, savings_balance and loan_balance
are never negative after any operation in the sequence.  (`ops` ranges
over all sequences, so every prefix of a sequence is an instance.) -/
theorem savings_and_loan_nonneg (nm em : String) (nid : ℕ) (ops : List Op)
    (m : Member)
    (hm : m ∈ (runOps (signup emptyState nm em nid) ops).members) :
    0 ≤ m.savings_balance ∧ 0 ≤ m.loan_balance :=
  (balancesNonneg_runOps
    (balancesNonneg_signup balancesNonneg_empty nm em nid) ops).1 m hm

theorem savings_and_loan_nonneg_witness :
    0 ≤ (Member.mk 0 ("ada") ("ada@coop.test") Role.member 0 0).savings_balance ∧
    0 ≤ (Member.mk 0 ("ada") ("ada@coop.test") Role.member 0 0).loan_balance :=
  savings_and_loan_nonneg ("ada") ("ada@coop.test") 0 []
    (Member.mk 0 ("ada") ("ada@coop.test") Role.member 0 0) (by decide)

/-- Claim C2: for a member row read as `m` and an amount > 0, the Withdraw
handler succeeds (reports no error) iff the amount is at most the
savings balance read at the time of the check; on success the balance
decreases by exactly the amount and one Withdraw record with that amount
is appended; on failure it reports InsufficientFunds and leaves the
whole store, in particular the balance and the savings log, unchanged. -/
theorem withdraw_spec (s : CoopState) (mid : ℕ) (m : Member) (a : ℚ)
    (hm : getMember s mid = some m) (ha : 0 < a) :
    ((withdraw s mid a).2 = none ↔ a ≤ m.savings_balance) ∧
    (a ≤ m.savings_balance →
      getMember (withdraw s mid a).1 mid =
        some { m with savings_balance := m.savings_balance - a } ∧
      (withdraw s mid a).1.savings_transactions =
        s.savings_transactions ++
          [{ member_id := mid, transaction_type := TxType.Withdraw,
             amount := a }]) ∧
    (m.savings_balance < a →
      withdraw s mid a = (s, some LedgerError.insufficientFunds)) := by
  refine ⟨⟨?_, ?_⟩, ?_, ?_⟩
  · intro h2
    by_contra hover
    rw [withdraw_of_over hm ha (not_le.mp hover)] at h2
    simp at h2
  · intro hle
    rw [withdraw_of_le hm ha hle]
  · intro hle
    rw [withdraw_of_le hm ha hle]
    exact ⟨find?_setSavings _ hm, rfl⟩
  · intro hover
    exact withdraw_of_over hm ha hover

theorem withdraw_spec_witness :
    withdraw wState 0 6000 = (wState, some LedgerError.insufficientFunds) :=
  (withdraw_spec wState 0 wMember 6000 (by decide) (by decide)).2.2 (by decide)

/-- Claim C3: for a member row read as `m` and an amount > 0, the Deposit
handler reports no error, increases the member's savings_balance by
exactly the amount, and appends exactly one Deposit savings record with
that amount. -/
theorem deposit_spec (s : CoopState) (mid : ℕ) (m : Member) (a : ℚ)
    (hm : getMember s mid = some m) (ha : 0 < a) :
    (deposit s mid a).2 = none ∧
    getMember (deposit s mid a).1 mid =
      some { m with savings_balance := m.savings_balance + a } ∧
    (deposit s mid a).1.savings_transactions =
      s.savings_transactions ++
        [{ member_id := mid, transaction_type := TxType.Deposit,
           amount := a }] := by
  rw [deposit_of_pos hm ha]
  exact ⟨rfl, find?_setSavings _ hm, rfl⟩

theorem deposit_spec_witness :
    (deposit wState 0 5000).2 = none ∧
    getMember (deposit wState 0 5000).1 0 =
      some { wMember with savings_balance := wMember.savings_balance + 5000 } ∧
    (deposit wState 0 5000).1.savings_transactions =
      wState.savings_transactions ++
        [{ member_id := 0, transaction_type := TxType.Deposit,
           amount := 5000 }] :=
  deposit_spec wState 0 wMember 5000 (by decide) (by decide)

/-- Claim C4, counterexample: invoking Approve on application 0 of
`approvedState`, whose status is already Approved, is NOT rejected as an
invalid-state error: the handler runs to completion reporting no error at
all (the admin page simply renders no Approve control for a non-Pending
row), leaving the store unchanged.  This refutes the claim that such an
invocation is "rejected as an invalid-state error". -/
theorem approve_after_approved_reports_no_error :
    approveLoan approvedState 0 = (approvedState, none) ∧
    (approveLoan approvedState 0).2 ≠ some LedgerError.invalidState := by
  refine ⟨by decide, by decide⟩

/-- Claim C4 (amended): once an application has left Pending, a further Approve
invocation is a silent no-op — it changes nothing and reports no error
(rather than an invalid-state error) — so after a first successful
approval the owning member's loan_balance has been credited by the
application amount exactly once, no matter how many further times Approve
is invoked. -/
theorem approve_credits_exactly_once (s : CoopState) (appId : ℕ)
    (app : LoanApp) (m : Member)
    (happ : findApp s appId = some app) (hst : app.status = LoanStatus.Pending)
    (hm : getMember s app.member_id = some m) (n : ℕ) :
    approveLoan (approveStep appId s) appId = (approveStep appId s, none) ∧
    (getMember ((approveStep appId)^[n + 1] s) app.member_id).map
        Member.loan_balance = some (m.loan_balance + app.amount) := by
  have h1 := approveLoan_of_pending happ hst hm
  have hs1 : approveStep appId s =
      { s with
          loan_applications := setStatus s.loan_applications appId
            LoanStatus.Approved,
          members := setLoan s.members m.id (m.loan_balance + app.amount),
          loan_transactions := s.loan_transactions ++
            [{ member_id := m.id, loan_application_id := some appId,
               action := LoanAction.Approved, amount := app.amount }] } := by
    rw [approveStep, h1]
  have hfind : findApp (approveStep appId s) appId =
      some { app with status := LoanStatus.Approved } := by
    rw [hs1]
    exact find?_setStatus _ happ
  have hnoop : approveLoan (approveStep appId s) appId =
      (approveStep appId s, none) :=
    approveLoan_of_notPending hfind (by simp)
  refine ⟨hnoop, ?_⟩
  have hfix : approveStep appId (approveStep appId s) = approveStep appId s := by
    rw [approveStep, hnoop]
  have hiter : (approveStep appId)^[n] (approveStep appId s) =
      approveStep appId s := Function.iterate_fixed hfix n
  rw [Function.iterate_succ_apply, hiter, hs1]
  have hmid : m.id = app.member_id := getMember_id hm
  have hm2 : s.members.find? (fun x => x.id == m.id) = some m := by
    rw [hmid]; exact hm
  have h3 := find?_setLoan (m.loan_balance + app.amount) hm2
  have h4 : getMember
      { s with
          loan_applications := setStatus s.loan_applications appId
            LoanStatus.Approved,
          members := setLoan s.members m.id (m.loan_balance + app.amount),
          loan_transactions := s.loan_transactions ++
            [{ member_id := m.id, loan_application_id := some appId,
               action := LoanAction.Approved, amount := app.amount }] }
      app.member_id =
      some { m with loan_balance := m.loan_balance + app.amount } := by
    rw [getMember, ← hmid]
    exact h3
  rw [h4]
  rfl

theorem approve_credits_exactly_once_witness :
    approveLoan (approveStep 0 wAppState) 0 = (approveStep 0 wAppState, none) ∧
    (getMember ((approveStep 0)^[2] wAppState) 0).map Member.loan_balance =
      some (wMember.loan_balance + 20000) :=
  approve_credits_exactly_once wAppState 0
    (LoanApp.mk 0 0 20000 LoanStatus.Pending) wMember
    (by decide) (by decide) (by decide) 1

/-- Claim C5: approving a Pending application sets its status to Approved,
adds exactly the application amount to the owning member's loan_balance,
and appends one loan record with action Approved, that amount, and a
reference to the application. -/
theorem approveLoan_spec (s : CoopState) (appId : ℕ) (app : LoanApp)
    (m : Member)
    (happ : findApp s appId = some app) (hst : app.status = LoanStatus.Pending)
    (hm : getMember s app.member_id = some m) :
    (approveLoan s appId).2 = none ∧
    findApp (approveLoan s appId).1 appId =
      some { app with status := LoanStatus.Approved } ∧
    getMember (approveLoan s appId).1 app.member_id =
      some { m with loan_balance := m.loan_balance + app.amount } ∧
    (approveLoan s appId).1.loan_transactions =
      s.loan_transactions ++
        [{ member_id := app.member_id, loan_application_id := some appId,
           action := LoanAction.Approved, amount := app.amount }] := by
  have hmid : m.id = app.member_id := getMember_id hm
  have hm2 : s.members.find? (fun x => x.id == m.id) = some m := by
    rw [hmid]; exact hm
  rw [approveLoan_of_pending happ hst hm]
  refine ⟨rfl, find?_setStatus _ happ, ?_, ?_⟩
  · show (setLoan s.members m.id (m.loan_balance + app.amount)).find?
      (fun x => x.id == app.member_id) = _
    rw [← hmid]
    exact find?_setLoan _ hm2
  · rw [hmid]

theorem approveLoan_spec_witness :
    (approveLoan wAppState 0).2 = none ∧
    findApp (approveLoan wAppState 0).1 0 =
      some (LoanApp.mk 0 0 20000 LoanStatus.Approved) ∧
    getMember (approveLoan wAppState 0).1 0 =
      some { wMember with loan_balance := wMember.loan_balance + 20000 } ∧
    (approveLoan wAppState 0).1.loan_transactions =
      wAppState.loan_transactions ++
        [{ member_id := 0, loan_application_id := some 0,
           action := LoanAction.Approved, amount := 20000 }] :=
  approveLoan_spec wAppState 0 (LoanApp.mk 0 0 20000 LoanStatus.Pending)
    wMember (by decide) (by decide) (by decide)

/-- Claim C6: rejecting a Pending application sets its status to Rejected and
appends one loan record with action Rejected, while the members table —
hence every member's loan_balance and savings_balance — is unchanged. -/
theorem rejectLoan_spec (s : CoopState) (appId : ℕ) (app : LoanApp)
    (happ : findApp s appId = some app)
    (hst : app.status = LoanStatus.Pending) :
    (rejectLoan s appId).2 = none ∧
    findApp (rejectLoan s appId).1 appId =
      some { app with status := LoanStatus.Rejected } ∧
    (rejectLoan s appId).1.loan_transactions =
      s.loan_transactions ++
        [{ member_id := app.member_id, loan_application_id := some appId,
           action := LoanAction.Rejected, amount := app.amount }] ∧
    (rejectLoan s appId).1.members = s.members := by
  rw [rejectLoan_of_pending happ hst]
  exact ⟨rfl, find?_setStatus _ happ, rfl, rfl⟩

theorem rejectLoan_spec_witness :
    (rejectLoan wAppState 0).2 = none ∧
    findApp (rejectLoan wAppState 0).1 0 =
      some (LoanApp.mk 0 0 20000 LoanStatus.Rejected) ∧
    (rejectLoan wAppState 0).1.loan_transactions =
      wAppState.loan_transactions ++
        [{ member_id := 0, loan_application_id := some 0,
           action := LoanAction.Rejected, amount := 20000 }] ∧
    (rejectLoan wAppState 0).1.members = wAppState.members :=
  rejectLoan_spec wAppState 0 (LoanApp.mk 0 0 20000 LoanStatus.Pending)
    (by decide) (by decide)

/-- Claim C7: for a member row read as `m` and an amount > 0 (with the store
returning the inserted row, as the code comment says it does in most
setups), the loan-application handler creates a Pending application with
that amount and appends one Applied loan record carrying the same amount
and referencing the id of the newly created application. -/
theorem applyLoanApplication_spec (s : CoopState) (mid : ℕ) (m : Member)
    (a : ℚ) (hm : getMember s mid = some m) (ha : 0 < a) :
    applyLoanApplication s mid a true =
      ({ s with
          loan_applications := s.loan_applications ++
            [{ id := s.next_app_id, member_id := mid, amount := a,
               status := LoanStatus.Pending }],
          next_app_id := s.next_app_id + 1,
          loan_transactions := s.loan_transactions ++
            [{ member_id := mid, loan_application_id := some s.next_app_id,
               action := LoanAction.Applied, amount := a }] }, none) := by
  rw [applyLoan_of_pos true hm ha]
  simp

theorem applyLoanApplication_spec_witness :
    applyLoanApplication wState 0 20000 true =
      ({ wState with
          loan_applications := wState.loan_applications ++
            [{ id := wState.next_app_id, member_id := 0, amount := 20000,
               status := LoanStatus.Pending }],
          next_app_id := wState.next_app_id + 1,
          loan_transactions := wState.loan_transactions ++
            [{ member_id := 0, loan_application_id := some wState.next_app_id,
               action := LoanAction.Applied, amount := 20000 }] }, none) :=
  applyLoanApplication_spec wState 0 wMember 20000 (by decide) (by decide)

/-- Claim C8: signup creates a member row with savings_balance = 0,
loan_balance = 0 and role = member, and no exposed ledger operation ever
changes the id or role column of any member row. -/
theorem signup_zero_balances_role_immutable (s : CoopState) (nm em : String)
    (nid : ℕ) (ops : List Op) :
    (signup s nm em nid).members =
      s.members ++
        [{ id := nid, name := nm, email := em, role := Role.member,
           savings_balance := 0, loan_balance := 0 }] ∧
    (runOps (signup s nm em nid) ops).members.map (fun m => (m.id, m.role)) =
      (signup s nm em nid).members.map (fun m => (m.id, m.role)) :=
  ⟨rfl, idRole_runOps _ ops⟩

/-- Claim C9: starting from a freshly signed-up account, after any sequence of
ledger operations (a failed operation leaves the store untouched, so the
successful ones are exactly what the logs record) every member's
savings_balance equals the sum of the Deposit amounts minus the sum of
the Withdraw amounts in its savings log, and its loan_balance equals the
sum of the amounts of its Approved loan records. -/
theorem balance_eq_log_sums (nm em : String) (nid : ℕ) (ops : List Op)
    (m : Member)
    (hm : m ∈ (runOps (signup emptyState nm em nid) ops).members) :
    m.savings_balance =
      depositsSum
          (runOps (signup emptyState nm em nid) ops).savings_transactions
          m.id -
        withdrawalsSum
          (runOps (signup emptyState nm em nid) ops).savings_transactions
          m.id ∧
    m.loan_balance =
      approvedSum
        (runOps (signup emptyState nm em nid) ops).loan_transactions m.id :=
  balancedLog_runOps (balancedLog_signup_empty nm em nid) ops m hm

theorem balance_eq_log_sums_witness :
    (Member.mk 0 ("ada") ("ada@coop.test") Role.member 0 0).savings_balance =
      depositsSum
          (runOps (signup emptyState ("ada") ("ada@coop.test") 0)
            []).savings_transactions 0 -
        withdrawalsSum
          (runOps (signup emptyState ("ada") ("ada@coop.test") 0)
            []).savings_transactions 0 ∧
    (Member.mk 0 ("ada") ("ada@coop.test") Role.member 0 0).loan_balance =
      approvedSum
        (runOps (signup emptyState ("ada") ("ada@coop.test") 0)
          []).loan_transactions 0 :=
  balance_eq_log_sums ("ada") ("ada@coop.test") 0 []
    (Member.mk 0 ("ada") ("ada@coop.test") Role.member 0 0) (by decide)

/-- Claim C10: when the Account Store's insert of the loan application returns
no row data, the loan-application handler still does not fail: it reports
no error and still appends the Applied loan record, with
loan_application_id null instead of a real application id. -/
theorem applyLoan_noRow_still_logs (s : CoopState) (mid : ℕ) (m : Member)
    (a : ℚ) (hm : getMember s mid = some m) (ha : 0 < a) :
    (applyLoanApplication s mid a false).2 = none ∧
    (applyLoanApplication s mid a false).1.loan_transactions =
      s.loan_transactions ++
        [{ member_id := mid, loan_application_id := none,
           action := LoanAction.Applied, amount := a }] := by
  rw [applyLoan_of_pos false hm ha]
  exact ⟨rfl, rfl⟩

theorem applyLoan_noRow_still_logs_witness :
    (applyLoanApplication wState 0 20000 false).2 = none ∧
    (applyLoanApplication wState 0 20000 false).1.loan_transactions =
      wState.loan_transactions ++
        [{ member_id := 0, loan_application_id := none,
           action := LoanAction.Applied, amount := 20000 }] :=
  applyLoan_noRow_still_logs wState 0 wMember 20000 (by decide) (by decide)

end Coop
